import Mathlib

/-!
Verification of the ngx_http_auth_cas_module access gate.

Shallow embedding of `src/ngx_http_auth_cas_module.c`. Byte strings are
`List Nat` (each element one byte of the buffer). nginx pool allocation is
modelled by a boolean oracle per allocation site: `true` means the
allocation succeeds, `false` means it returns NULL.

The module calls `ngx_escape_uri` from nginx core (not part of this
repository); that function is modelled from the spec, see `ngx_escape_uri`
below.
-/

/-- C `isspace` in the ASCII locale: tab, LF, VT, FF, CR, space. -/
def isspace (b : Nat) : Bool :=
  b = 9 || b = 10 || b = 11 || b = 12 || b = 13 || b = 32

/-- The `while (isspace(*start)) start++` loop of `find_cookie`.
Starting at index `i` of the header bytes `h`, it advances past leading
whitespace.  The C loop stops because nginx NUL-terminates header values
(`h.data[h.len] = 0` and `isspace(0)` is false), so the stop position is
`i` plus the length of the whitespace run beginning at `i`, and never more
than `h.length` (the index of the terminator). -/
def skipWs (h : List Nat) (i : Nat) : Nat :=
  i + ((h.drop i).takeWhile isspace).length

/-- The C `memchr` over a list suffix: first index (counting from `i`) whose byte
equals `c`. -/
def memchrFrom (c : Nat) : List Nat → Nat → Option Nat
  | [], _ => none
  | b :: t, i => if b = c then some i else memchrFrom c t (i + 1)

/-- The call `memchr(h + i, c, h.len - i)` of the C code, as an absolute index. -/
def memchrIdx (h : List Nat) (c : Nat) (i : Nat) : Option Nat :=
  memchrFrom c (h.drop i) i

/-- Result of scanning one `Cookie` header value:
`noMatch` — fall through to the next header;
`found v` — the C `return 1` with `*value = v`;
`failed` — the C `return 0` taken on `ngx_pnalloc` failure inside a match
(it aborts the whole scan, remaining headers are not visited). -/
inductive ScanResult where
  | noMatch : ScanResult
  | failed : ScanResult
  | found : List Nat → ScanResult
deriving DecidableEq, Repr

/-- The `while (start < end)` loop of `find_cookie` over one header value
`h`, searching for cookie `name`, with allocation oracle `allocOk`.
`fuel` only makes the recursion structural; the wrapper `scanHeader`
supplies `h.length + 1`, which is enough because `start` strictly
increases with every iteration (see `scanFuel_fuel_irrel`).

Per iteration, following the C exactly: skip leading whitespace; find the
first `=` (none: stop, malformed tail); candidate value starts one past
`=`; find the first `;` after it; if the candidate name (bytes from the
whitespace-skipped start up to `=`) has exactly `name`'s length and bytes,
return the bytes from past `=` **to the end of the header** (the C sets
`value->len = end - val` in both branches; with a `;` present it copies
that many bytes to a fresh allocation, which can fail); otherwise resume
just past the `;`, or stop if there is none. -/
def scanFuel (name h : List Nat) (allocOk : Bool) : Nat → Nat → ScanResult
  | 0, _ => .noMatch
  | fuel + 1, start =>
    if start < h.length then
      let s := skipWs h start
      match memchrIdx h 61 s with
      | none => .noMatch
      | some eq =>
        let semi := memchrIdx h 59 (eq + 1)
        if eq - s = name.length ∧ (h.drop s).take (eq - s) = name then
          match semi with
          | none => .found (h.drop (eq + 1))
          | some _ => if allocOk then .found (h.drop (eq + 1)) else .failed
        else
          match semi with
          | some sm => scanFuel name h allocOk fuel (sm + 1)
          | none => .noMatch
    else .noMatch

/-- Scan one header value from its start. -/
def scanHeader (name h : List Nat) (allocOk : Bool) : ScanResult :=
  scanFuel name h allocOk (h.length + 1) 0

/-- The function `find_cookie`: walk the request's `Cookie` headers in order; the first
header producing a match wins.  A `ScanResult.failed` (allocation failure
while copying a matched value) makes the C return 0 immediately, which the
caller cannot distinguish from "not found". -/
def find_cookie (headers : List (List Nat)) (name : List Nat)
    (allocOk : Bool) : Option (List Nat) :=
  match headers with
  | [] => none
  | h :: t =>
    match scanHeader name h allocOk with
    | .found v => some v
    | .failed => none
    | .noMatch => find_cookie t name allocOk

/-- Modelled from the spec: the character class of `ngx_escape_uri` with
`NGX_ESCAPE_ARGS` (nginx core, not part of this repository).  Spec 4.2: a
fixed unreserved set — alphanumerics and a small fixed set of punctuation
(here `-`, `.`, `_`, `~`) — passes through; every other byte is escaped. -/
def isUnreserved (b : Nat) : Bool :=
  (48 ≤ b && b ≤ 57) || (65 ≤ b && b ≤ 90) || (97 ≤ b && b ≤ 122) ||
    b = 45 || b = 46 || b = 95 || b = 126

/-- Uppercase hexadecimal digit character for a nibble. -/
def hexDigit (n : Nat) : Nat :=
  if n < 10 then 48 + n else 55 + n

/-- Modelled from the spec: one byte of `ngx_escape_uri` output — the byte
itself when unreserved, else `%` followed by two uppercase hex digits. -/
def escapeByte (b : Nat) : List Nat :=
  if isUnreserved b then [b] else [37, hexDigit (b / 16 % 16), hexDigit (b % 16)]

/-- Modelled from the spec: `ngx_escape_uri(dst, src, len, NGX_ESCAPE_ARGS)`
in its writing mode, as the byte sequence written (nginx core, not part of
this repository). -/
def ngx_escape_uri (s : List Nat) : List Nat :=
  s.flatMap escapeByte

/-- Modelled from the spec: the measuring mode `ngx_escape_uri(NULL, ...)`.
Spec 4.2 describes it as "compute output length without writing", so it is
the length of the escaped output.  (Real nginx returns the *count of bytes
needing escaping*; either reading is recorded where a claim depends on the
difference.) -/
def ngx_escape_uri_measure (s : List Nat) : Nat :=
  (ngx_escape_uri s).length

/-- The bytes of the `CAS_SERVICE_PARAM` literal "?service=" (without the
terminating NUL). -/
def serviceParam : List Nat := [63, 115, 101, 114, 118, 105, 99, 101, 61]

/-- The three bytes `%3F` written literally between escaped path and
escaped query. -/
def pct3F : List Nat := [37, 51, 70]

/-- The per-location configuration `ngx_http_auth_cas_ctx_t` as seen at
request time (after merging): `auth_cas` flag, cookie name, login URL and
pre-escaped service URL.  An unset `ngx_str_t` (`data == NULL, len == 0`)
reads as the empty byte string. -/
structure CasCtx where
  auth_cas : Bool
  auth_cas_cookie : List Nat
  auth_cas_login_url : List Nat
  auth_cas_service_url : List Nat
deriving DecidableEq, Repr

/-- The conservative allocation size `s->len` computed by
`create_login_url` before writing (`sizeof(CAS_SERVICE_PARAM)` is 10,
including the NUL). -/
def create_login_url_alloc (ctx : CasCtx) (uri args : List Nat) : Nat :=
  ctx.auth_cas_login_url.length + 10 + ctx.auth_cas_service_url.length +
    uri.length * 3 + 3 + args.length * 3

/-- The function `create_login_url`: allocate (oracle `allocOk`), then write, in order,
the login URL, the literal "?service=", the stored service URL verbatim,
the escaped request path, and — only when the query string is non-empty —
the literal `%3F` followed by the escaped query.  The returned string is
the bytes written (the C resets `s->len = p - s->data`). -/
def create_login_url (ctx : CasCtx) (uri args : List Nat)
    (allocOk : Bool) : Option (List Nat) :=
  if allocOk then
    some (ctx.auth_cas_login_url ++ serviceParam ++ ctx.auth_cas_service_url ++
      ngx_escape_uri uri ++
      (if args.isEmpty then [] else pct3F ++ ngx_escape_uri args))
  else none

/-- Outcome of the access-phase handler, as the nginx return codes it
produces: `NGX_DECLINED`, `NGX_HTTP_UNAUTHORIZED`,
`NGX_HTTP_MOVED_TEMPORARILY` (with the `Location` value), and
`NGX_HTTP_INTERNAL_SERVER_ERROR`. -/
inductive Decision where
  | declined : Decision
  | unauthorized : Decision
  | movedTemporarily : List Nat → Decision
  | internalServerError : Decision
deriving DecidableEq, Repr

/-- The function `send_redirect`: push the `Location` header (`ngx_list_push` can fail,
oracle `allocOk`) and answer 302, else 500. -/
def send_redirect (allocOk : Bool) (location : List Nat) : Decision :=
  if allocOk then .movedTemporarily location else .internalServerError

/-- The function `ngx_http_auth_cas_handler`: decline when the gate is off; otherwise a
found cookie means 401; otherwise build the login URL (500 on allocation
failure) and send the redirect.  `allocCookie`, `allocUrl`, `allocHeader`
are the oracles for the three allocation sites (cookie-value copy in
`find_cookie`, URL buffer in `create_login_url`, header push in
`send_redirect`). -/
def ngx_http_auth_cas_handler (ctx : CasCtx) (headers : List (List Nat))
    (uri args : List Nat) (allocCookie allocUrl allocHeader : Bool) : Decision :=
  if !ctx.auth_cas then .declined
  else
    match find_cookie headers ctx.auth_cas_cookie allocCookie with
    | some _ => .unauthorized
    | none =>
      match create_login_url ctx uri args allocUrl with
      | none => .internalServerError
      | some location => send_redirect allocHeader location

/-- An `ngx_str_t` as stored in configuration: explicit length plus the
bytes visible through it. -/
structure NgxStr where
  len : Nat
  data : List Nat
deriving DecidableEq, Repr

/-- The function `set_auth_cas_service_url`: the handler of the `auth_cas_service_url`
directive.  It sets the stored length to
`value->len + ngx_escape_uri(NULL, value, len, NGX_ESCAPE_ARGS)`,
zero-allocates that many bytes plus one (`ngx_pcalloc`), and writes the
escaped URL at the front; the field then exposes `len` bytes of that
buffer. -/
def set_auth_cas_service_url (value : List Nat) : NgxStr :=
  let n := value.length + ngx_escape_uri_measure value
  { len := n
    data := (ngx_escape_uri value ++ List.replicate (n + 1) 0).take n }

/-- A location configuration before merging: `NGX_CONF_UNSET` /
`ngx_str_null` fields are `none`. -/
structure RawCtx where
  auth_cas : Option Bool
  auth_cas_cookie : Option (List Nat)
  auth_cas_login_url : Option (List Nat)
  auth_cas_service_url : Option (List Nat)
deriving DecidableEq, Repr

/-- The default cookie name `CAS_COOKIE_NAME` = "CASC". -/
def casCookieName : List Nat := [67, 65, 83, 67]

/-- The function `ngx_http_auth_cas_merge_loc_conf`: flag merged with default `0`
(off), cookie name with default `"CASC"`, and the two URLs simply
inherited from the parent when unset — they may remain unset, no
validation happens here (the function always returns `NGX_CONF_OK`). -/
def ngx_http_auth_cas_merge_loc_conf (prev conf : RawCtx) : RawCtx :=
  { auth_cas := some ((conf.auth_cas.orElse fun _ => prev.auth_cas).getD false)
    auth_cas_cookie :=
      some ((conf.auth_cas_cookie.orElse fun _ => prev.auth_cas_cookie).getD casCookieName)
    auth_cas_login_url := conf.auth_cas_login_url.orElse fun _ => prev.auth_cas_login_url
    auth_cas_service_url := conf.auth_cas_service_url.orElse fun _ => prev.auth_cas_service_url }

/-- Number of occurrences of `pat` as a contiguous substring of `s`
(counting start positions). -/
def occCount (pat : List Nat) : List Nat → Nat
  | [] => if pat.isPrefixOf ([] : List Nat) then 1 else 0
  | b :: t => (if pat.isPrefixOf (b :: t) then 1 else 0) + occCount pat t

/-- ASCII bytes of a string literal, for concrete test inputs. -/
def bytes (s : String) : List Nat :=
  s.toList.map Char.toNat

/-! ### Helper lemmas about the scanner primitives -/

theorem takeWhile_length_le (p : Nat → Bool) (l : List Nat) :
    (l.takeWhile p).length ≤ l.length :=
  (List.takeWhile_sublist p).length_le

theorem takeWhile_eq_nil_of_head (p : Nat → Bool) (l : List Nat)
    (h : ∀ b, l.head? = some b → p b = false) : l.takeWhile p = [] := by
  cases l with
  | nil => rfl
  | cons b t =>
    have hb := h b rfl
    simp [List.takeWhile, hb]

theorem skipWs_ge (h : List Nat) (i : Nat) : i ≤ skipWs h i := by
  simp [skipWs]

theorem skipWs_le (h : List Nat) (i : Nat) (hi : i ≤ h.length) :
    skipWs h i ≤ h.length := by
  have := takeWhile_length_le isspace (h.drop i)
  simp only [skipWs]
  simp only [List.length_drop] at this
  omega

theorem memchrFrom_ge {c : Nat} {l : List Nat} {i j : Nat}
    (h : memchrFrom c l i = some j) : i ≤ j := by
  induction l generalizing i with
  | nil => simp [memchrFrom] at h
  | cons b t ih =>
    simp only [memchrFrom] at h
    split at h
    · have hij : i = j := by simpa using h
      omega
    · have := ih h
      omega

theorem memchrFrom_lt {c : Nat} {l : List Nat} {i j : Nat}
    (h : memchrFrom c l i = some j) : j < i + l.length := by
  induction l generalizing i with
  | nil => simp [memchrFrom] at h
  | cons b t ih =>
    simp only [memchrFrom] at h
    split at h
    · have hij : i = j := by simpa using h
      simp only [List.length_cons]
      omega
    · have := ih h
      simp only [List.length_cons]
      omega

theorem memchrFrom_eq_none {c : Nat} {l : List Nat} (i : Nat) (h : c ∉ l) :
    memchrFrom c l i = none := by
  induction l generalizing i with
  | nil => rfl
  | cons b t ih =>
    simp only [List.mem_cons, not_or] at h
    simp only [memchrFrom]
    rw [if_neg (by omega), ih _ h.2]

theorem memchrFrom_append {c : Nat} {a : List Nat} (b : List Nat) (i : Nat)
    (h : c ∉ a) : memchrFrom c (a ++ c :: b) i = some (i + a.length) := by
  induction a generalizing i with
  | nil => simp [memchrFrom]
  | cons x t ih =>
    simp only [List.mem_cons, not_or] at h
    rw [List.cons_append]
    simp only [memchrFrom]
    rw [if_neg (by omega)]
    simp only [List.length_cons]
    rw [show i + (t.length + 1) = (i + 1) + t.length by omega]
    exact ih (i + 1) h.2

theorem memchrIdx_ge {h : List Nat} {c i j : Nat}
    (hm : memchrIdx h c i = some j) : i ≤ j :=
  memchrFrom_ge hm

theorem memchrIdx_lt {h : List Nat} {c i j : Nat}
    (hm : memchrIdx h c i = some j) : j < h.length ∨ h.length ≤ i := by
  have hlt := memchrFrom_lt hm
  simp only [List.length_drop] at hlt
  omega

theorem scanFuel_fuel_irrel (name h : List Nat) (aok : Bool) :
    ∀ f g s, h.length ≤ f + s → h.length ≤ g + s →
      scanFuel name h aok f s = scanFuel name h aok g s := by
  intro f
  induction f with
  | zero =>
    intro g s hf hg
    cases g with
    | zero => rfl
    | succ g =>
      simp only [scanFuel]
      rw [if_neg (by omega)]
  | succ f ih =>
    intro g s hf hg
    cases g with
    | zero =>
      simp only [scanFuel]
      rw [if_neg (by omega)]
    | succ g =>
      simp only [scanFuel]
      by_cases hs : s < h.length
      · rw [if_pos hs, if_pos hs]
        cases heq : memchrIdx h 61 (skipWs h s) with
        | none => rfl
        | some eq =>
          dsimp only
          by_cases hm : (eq - skipWs h s = name.length ∧
              (h.drop (skipWs h s)).take (eq - skipWs h s) = name)
          · rw [if_pos hm, if_pos hm]
          · rw [if_neg hm, if_neg hm]
            cases hsemi : memchrIdx h 59 (eq + 1) with
            | none => rfl
            | some sm =>
              have hge : eq + 1 ≤ sm := memchrIdx_ge hsemi
              have hsk : s ≤ skipWs h s := skipWs_ge h s
              have heqge : skipWs h s ≤ eq := memchrIdx_ge heq
              exact ih g (sm + 1) (by omega) (by omega)
      · rw [if_neg hs, if_neg hs]

/-! ### Helper lemmas about the escaper and occurrence counting -/

theorem hexDigit_ne_37 (n : Nat) : hexDigit n ≠ 37 := by
  simp only [hexDigit]
  split <;> omega

theorem isUnreserved_37 : isUnreserved 37 = false := by decide

theorem escapeByte_len_le (b : Nat) : (escapeByte b).length ≤ 3 := by
  simp only [escapeByte]
  split <;> simp

theorem escape_len_le (s : List Nat) :
    (ngx_escape_uri s).length ≤ 3 * s.length := by
  induction s with
  | nil => simp [ngx_escape_uri]
  | cons b t ih =>
    have hb := escapeByte_len_le b
    simp only [ngx_escape_uri, List.flatMap_cons, List.length_append] at *
    simp only [List.length_cons]
    omega

theorem escape_append (a b : List Nat) :
    ngx_escape_uri (a ++ b) = ngx_escape_uri a ++ ngx_escape_uri b := by
  simp [ngx_escape_uri]

theorem occCount_cons (pat : List Nat) (b : Nat) (t : List Nat) :
    occCount pat (b :: t) =
      (if pat.isPrefixOf (b :: t) then 1 else 0) + occCount pat t := rfl

theorem not_prefix_pct3F_of_head_ne {b : Nat} (t : List Nat) (hb : b ≠ 37) :
    pct3F.isPrefixOf (b :: t) = false := by
  have h37 : (37 == b) = false := by
    simp only [beq_eq_false_iff_ne, ne_eq]
    omega
  simp [pct3F, List.isPrefixOf, h37]

theorem occCount_cons_ne (b : Nat) (t : List Nat) (hb : b ≠ 37) :
    occCount pct3F (b :: t) = occCount pct3F t := by
  rw [occCount_cons, not_prefix_pct3F_of_head_ne t hb]
  simp

theorem occCount_append_no37 (a s : List Nat) (ha : ∀ b ∈ a, b ≠ 37) :
    occCount pct3F (a ++ s) = occCount pct3F s := by
  induction a with
  | nil => rfl
  | cons b t ih =>
    rw [List.cons_append, occCount_cons_ne _ _ (ha b (by simp))]
    exact ih fun x hx => ha x (by simp [hx])

theorem occCount_triple (d1 d2 : Nat) (rest : List Nat) (h1 : d1 ≠ 37)
    (h2 : d2 ≠ 37) (hne : ¬(d1 = 51 ∧ d2 = 70)) :
    occCount pct3F (37 :: d1 :: d2 :: rest) = occCount pct3F rest := by
  have hpre : pct3F.isPrefixOf (37 :: d1 :: d2 :: rest) = false := by
    rw [Bool.eq_false_iff]
    intro hp
    rw [List.isPrefixOf_iff_prefix] at hp
    rcases hp with ⟨t0, ht⟩
    simp only [pct3F, List.cons_append, List.cons.injEq] at ht
    exact hne ⟨ht.2.1.symm, ht.2.2.1.symm⟩
  rw [occCount_cons, hpre]
  simp only [Bool.false_eq_true, if_false, Nat.zero_add]
  rw [occCount_cons_ne _ _ h1, occCount_cons_ne _ _ h2]

theorem occCount_escape_append (x s : List Nat)
    (hx : ∀ b ∈ x, b < 256 ∧ b ≠ 63) :
    occCount pct3F (ngx_escape_uri x ++ s) = occCount pct3F s := by
  induction x with
  | nil => simp [ngx_escape_uri]
  | cons b t ih =>
    have hb := hx b (by simp)
    have hrest := ih fun y hy => hx y (by simp [hy])
    rw [show ngx_escape_uri (b :: t) = escapeByte b ++ ngx_escape_uri t from rfl,
      List.append_assoc]
    by_cases hu : isUnreserved b = true
    · have hb37 : b ≠ 37 := by
        intro e
        rw [e, isUnreserved_37] at hu
        exact Bool.false_ne_true hu
      rw [show escapeByte b = [b] by simp [escapeByte, hu], List.singleton_append,
        occCount_cons_ne _ _ hb37]
      exact hrest
    · have he : escapeByte b = [37, hexDigit (b / 16 % 16), hexDigit (b % 16)] := by
        simp [escapeByte, hu]
      rw [he]
      have hne : ¬(hexDigit (b / 16 % 16) = 51 ∧ hexDigit (b % 16) = 70) := by
        rintro ⟨e1, e2⟩
        simp only [hexDigit] at e1 e2
        split at e1 <;> split at e2 <;> omega
      rw [List.cons_append, List.cons_append, List.cons_append,
        occCount_triple _ _ _ (hexDigit_ne_37 _) (hexDigit_ne_37 _) hne]
      exact hrest

/-! ### Claim theorems -/

/-- C1: the claim says the value returned by `find_cookie` for a matching
pair followed by `;` is exactly the bytes up to that `;`.  The code
instead sets `value->len = end - val` before branching, so the returned
value runs to the end of the header: for header `CASC=42; bar=1337` and
name `CASC` it returns `42; bar=1337`, not `42`.  This contradicts both
the spec and the code's own comment (the copy exists to extract the value
embedded before the `;`). -/
theorem claim1_cookie_value_includes_tail :
    find_cookie [bytes ("CASC=42; bar=1337")] (bytes ("CASC")) true
      = some (bytes ("42; bar=1337")) ∧
    bytes ("42; bar=1337") ≠ bytes ("42") ∧
    find_cookie [bytes ("CASC=42")] (bytes ("CASC")) true
      = some (bytes ("42")) := by
  decide

/-- C2: the claim says the stored `service_url` is exactly the full
percent-encoded URL with the length covering the whole encoding.  The
directive handler stores `value->len + ngx_escape_uri(NULL, ...)` as the
length, which is not the encoded length: already for the one-byte URL `/`
(encoding `%2F`, 3 bytes) the stored length is wrong and the stored bytes
are not the encoding (under the spec's measure-mode model the field is
the encoding plus trailing NUL padding; under real nginx semantics, where
the NULL mode returns the count of escaped bytes, the buffer is
undersized and the field truncates the encoding). -/
theorem claim2_service_url_stored_length_wrong :
    (set_auth_cas_service_url (bytes ("/"))).len
        ≠ (ngx_escape_uri (bytes ("/"))).length ∧
    (set_auth_cas_service_url (bytes ("/"))).data ≠ ngx_escape_uri (bytes ("/")) ∧
    (set_auth_cas_service_url (bytes ("/"))).data
        = ngx_escape_uri (bytes ("/")) ++ [0] := by
  decide

/-- C3: the gate decision is exactly: inactive route — declined,
whatever the cookies; cookie reported found — unauthorized; otherwise the
redirect carrying the built login URL with the temporary-redirect status,
or internal-error when allocating the URL buffer (or installing the
`Location` header) fails. -/
theorem claim3_gate_decision_exact (ctx : CasCtx) (headers : List (List Nat))
    (uri args : List Nat) (aC aU aH : Bool) :
    ngx_http_auth_cas_handler ctx headers uri args aC aU aH =
      if ctx.auth_cas = false then Decision.declined
      else if (find_cookie headers ctx.auth_cas_cookie aC).isSome then
        Decision.unauthorized
      else if aU = false then Decision.internalServerError
      else if aH = false then Decision.internalServerError
      else Decision.movedTemporarily (ctx.auth_cas_login_url ++ serviceParam ++
        ctx.auth_cas_service_url ++ ngx_escape_uri uri ++
        (if args.isEmpty then [] else pct3F ++ ngx_escape_uri args)) := by
  simp only [ngx_http_auth_cas_handler, create_login_url, send_redirect]
  cases hca : ctx.auth_cas
  · simp
  · cases hf : find_cookie headers ctx.auth_cas_cookie aC
    · cases aU <;> cases aH <;> simp
    · simp

/-- C4 counterexample: the cookie `CASC` *is* present (the successful-
allocation run finds it), yet when the allocation for the owned copy of
the matched value fails, `find_cookie` returns 0 and the handler builds a
redirect as if the cookie were absent — not the internal-error outcome
the claim requires for every allocation failure. -/
theorem claim4_counterexample :
    find_cookie [bytes ("CASC=1; a=b")] (bytes ("CASC")) true
      = some (bytes ("1; a=b")) ∧
    ngx_http_auth_cas_handler ⟨true, bytes ("CASC"), bytes ("L"), bytes ("S")⟩
        [bytes ("CASC=1; a=b")] (bytes ("/p")) [] false true true
      = Decision.movedTemporarily (bytes ("L?service=S%2Fp")) ∧
    ngx_http_auth_cas_handler ⟨true, bytes ("CASC"), bytes ("L"), bytes ("S")⟩
        [bytes ("CASC=1; a=b")] (bytes ("/p")) [] false true true
      ≠ Decision.internalServerError := by
  decide

/-- C4 amended: with the gate active, allocation failure in the final URL
buffer, or while installing the `Location` header, yields internal-error;
allocation failure while copying a matched cookie value is reported as
"not found" (so the request gets a redirect built as if the cookie were
absent); no allocation failure ever yields the declined/allow outcome. -/
theorem claim4_alloc_failure_fail_closed (c l s : List Nat)
    (headers : List (List Nat)) (uri args : List Nat) (aC aU aH : Bool) :
    ngx_http_auth_cas_handler ⟨true, c, l, s⟩ headers uri args aC aU aH
        ≠ Decision.declined ∧
    ngx_http_auth_cas_handler ⟨true, c, l, s⟩ headers uri args aC false aH =
      (if (find_cookie headers c aC).isSome then Decision.unauthorized
       else Decision.internalServerError) ∧
    ngx_http_auth_cas_handler ⟨true, c, l, s⟩ headers uri args aC aU false =
      (if (find_cookie headers c aC).isSome then Decision.unauthorized
       else Decision.internalServerError) := by
  refine ⟨?_, ?_, ?_⟩
  · simp only [ngx_http_auth_cas_handler, create_login_url, send_redirect]
    cases hf : find_cookie headers c aC
    · cases aU <;> cases aH <;> simp
    · simp
  · simp only [ngx_http_auth_cas_handler, create_login_url, send_redirect]
    cases hf : find_cookie headers c aC <;> simp
  · simp only [ngx_http_auth_cas_handler, create_login_url, send_redirect]
    cases hf : find_cookie headers c aC
    · cases aU <;> simp
    · simp

/-- C6: the built login URL is byte-exactly the configured login URL,
then "?service=", then the stored service URL copied verbatim (not
re-escaped), then the escaped path, then — only for a non-empty query —
the literal `%3F` and the escaped query; the output therefore starts with
the login URL immediately followed by "?service=".  The written bytes
(plus the NUL terminator) also fit the conservative allocation bound. -/
theorem claim6_login_url_layout (a : Bool) (c l s uri args : List Nat) :
    create_login_url ⟨a, c, l, s⟩ uri args true =
      some (l ++ serviceParam ++ s ++ ngx_escape_uri uri ++
        (if args.isEmpty then [] else pct3F ++ ngx_escape_uri args)) ∧
    (∃ rest, l ++ serviceParam ++ s ++ ngx_escape_uri uri ++
        (if args.isEmpty then [] else pct3F ++ ngx_escape_uri args)
      = (l ++ serviceParam) ++ rest) ∧
    (l ++ serviceParam ++ s ++ ngx_escape_uri uri ++
        (if args.isEmpty then [] else pct3F ++ ngx_escape_uri args)).length + 1
      ≤ create_login_url_alloc ⟨a, c, l, s⟩ uri args := by
  refine ⟨rfl, ⟨s ++ ngx_escape_uri uri ++
    (if args.isEmpty then [] else pct3F ++ ngx_escape_uri args),
    by simp [List.append_assoc]⟩, ?_⟩
  have h1 := escape_len_le uri
  have h2 := escape_len_le args
  simp only [create_login_url_alloc, List.length_append, serviceParam]
  cases hargs : args.isEmpty <;> simp [pct3F] <;> omega

/-- C7 counterexample: gate active, no login URL configured, cookie
absent — the code does not produce the internal-error outcome the claim
requires; it silently builds a redirect whose location starts with
"?service=" (the empty login URL contributes nothing). -/
theorem claim7_counterexample :
    ngx_http_auth_cas_handler ⟨true, bytes ("CASC"), [], bytes ("svc")⟩ []
        (bytes ("/secure")) [] true true true
      = Decision.movedTemporarily (bytes ("?service=svc%2Fsecure")) ∧
    ngx_http_auth_cas_handler ⟨true, bytes ("CASC"), [], bytes ("svc")⟩ []
        (bytes ("/secure")) [] true true true
      ≠ Decision.internalServerError := by
  decide

/-- C7 amended: a missing login URL is never validated — not at merge
time (the merge function only inherits the parent's unset value and
always succeeds) and not at request time: with the gate active and the
cookie absent the handler silently builds the redirect with an empty
login-URL prefix, so the location starts with "?service="; the request is
never allowed through (never declined). -/
theorem claim7_missing_login_url_not_validated (c s : List Nat)
    (headers : List (List Nat)) (uri args : List Nat) (aC aH : Bool)
    (p q : RawCtx) :
    (ngx_http_auth_cas_handler ⟨true, c, [], s⟩ headers uri args aC true aH
        ≠ Decision.declined) ∧
    (find_cookie headers c aC = none →
      ngx_http_auth_cas_handler ⟨true, c, [], s⟩ headers uri args aC true aH =
        if aH then
          Decision.movedTemporarily (serviceParam ++ s ++ ngx_escape_uri uri ++
            (if args.isEmpty then [] else pct3F ++ ngx_escape_uri args))
        else Decision.internalServerError) ∧
    (p.auth_cas_login_url = none → q.auth_cas_login_url = none →
      (ngx_http_auth_cas_merge_loc_conf p q).auth_cas_login_url = none) := by
  refine ⟨?_, ?_, ?_⟩
  · simp only [ngx_http_auth_cas_handler, create_login_url, send_redirect]
    cases hf : find_cookie headers c aC
    · cases aH <;> simp
    · simp
  · intro hf
    simp only [ngx_http_auth_cas_handler, create_login_url, send_redirect, hf]
    cases aH <;> simp
  · intro hp hq
    simp [ngx_http_auth_cas_merge_loc_conf, hp, hq]

/-- C7 witness: the amended behavior at a concrete misconfigured setup. -/
theorem claim7_missing_login_url_not_validated_witness :
    (ngx_http_auth_cas_merge_loc_conf ⟨none, none, none, none⟩
        ⟨none, none, none, none⟩).auth_cas_login_url = none ∧
    ngx_http_auth_cas_handler ⟨true, bytes ("CASC"), [], bytes ("svc")⟩ []
        (bytes ("/a")) [] true true true
      = Decision.movedTemporarily (serviceParam ++ bytes ("svc") ++
          ngx_escape_uri (bytes ("/a")) ++
          (if ([] : List Nat).isEmpty then [] else pct3F ++ ngx_escape_uri [])) := by
  have h := claim7_missing_login_url_not_validated (bytes ("CASC")) (bytes ("svc"))
    [] (bytes ("/a")) [] true true ⟨none, none, none, none⟩ ⟨none, none, none, none⟩
  refine ⟨h.2.2 rfl rfl, ?_⟩
  rw [h.2.1 (by decide)]
  simp

/-- C5: the escaper (modelled from the spec, since `ngx_escape_uri` is
nginx-core code not in this repository) passes the fixed unreserved class
through unchanged and renders every other byte — `%`, space, `?`, `&`,
`=`, `#`, and all bytes at or above 0x80 — as `%XX` with uppercase hex;
escaping `/a b` gives `%2Fa%20b` and `x=1&y=2` gives `x%3D1%26y%3D2`. -/
theorem claim5_escape_character_class :
    (∀ b : Nat,
      (48 ≤ b ∧ b ≤ 57) ∨ (65 ≤ b ∧ b ≤ 90) ∨ (97 ≤ b ∧ b ≤ 122) →
      escapeByte b = [b]) ∧
    (∀ b : Nat, b < 256 → isUnreserved b = false →
      escapeByte b = [37, hexDigit (b / 16), hexDigit (b % 16)]) ∧
    (∀ n : Nat, n < 16 →
      (48 ≤ hexDigit n ∧ hexDigit n ≤ 57) ∨
        (65 ≤ hexDigit n ∧ hexDigit n ≤ 70)) ∧
    escapeByte 37 = bytes ("%25") ∧
    escapeByte 32 = bytes ("%20") ∧
    escapeByte 63 = bytes ("%3F") ∧
    escapeByte 38 = bytes ("%26") ∧
    escapeByte 61 = bytes ("%3D") ∧
    escapeByte 35 = bytes ("%23") ∧
    (∀ b : Nat, 128 ≤ b → b < 256 →
      escapeByte b = [37, hexDigit (b / 16), hexDigit (b % 16)]) ∧
    ngx_escape_uri (bytes ("/a b")) = bytes ("%2Fa%20b") ∧
    ngx_escape_uri (bytes ("x=1&y=2")) = bytes ("x%3D1%26y%3D2") := by
  have hgen : ∀ b : Nat, b < 256 → isUnreserved b = false →
      escapeByte b = [37, hexDigit (b / 16), hexDigit (b % 16)] := by
    intro b hb hu
    have hm : b / 16 % 16 = b / 16 := Nat.mod_eq_of_lt (by omega)
    simp [escapeByte, hu, hm]
  refine ⟨?_, hgen, ?_, by decide, by decide, by decide, by decide, by decide,
    by decide, ?_, by decide, by decide⟩
  · intro b hb
    have hu : isUnreserved b = true := by
      simp only [isUnreserved, Bool.or_eq_true, Bool.and_eq_true,
        decide_eq_true_eq]
      omega
    simp [escapeByte, hu]
  · intro n hn
    simp only [hexDigit]
    split <;> omega
  · intro b h1 h2
    have hu : isUnreserved b = false := by
      rw [Bool.eq_false_iff]
      intro htrue
      simp only [isUnreserved, Bool.or_eq_true, Bool.and_eq_true,
        decide_eq_true_eq] at htrue
      omega
    exact hgen b h2 hu

/-- C5 witness: the character-class facts at concrete bytes. -/
theorem claim5_escape_character_class_witness :
    escapeByte 65 = [65] ∧
    escapeByte 200 = [37, hexDigit (200 / 16), hexDigit (200 % 16)] ∧
    ((48 ≤ hexDigit 12 ∧ hexDigit 12 ≤ 57) ∨
      (65 ≤ hexDigit 12 ∧ hexDigit 12 ≤ 70)) := by
  have h := claim5_escape_character_class
  exact ⟨h.1 65 (by omega), h.2.2.2.2.2.2.2.2.2.1 200 (by omega) (by omega),
    h.2.2.1 12 (by omega)⟩

/-- C8 counterexample: with an empty query the claim forbids any `%3F` in
the output, but the configured strings can themselves contain `%3F` — a
stored (pre-escaped) service URL for a URL containing `?` is exactly the
bytes `%3F`, and it is copied verbatim into the output. -/
theorem claim8_counterexample :
    create_login_url ⟨true, [], bytes ("L"), pct3F⟩ [] [] true
      = some (bytes ("L?service=%3F")) ∧
    occCount pct3F (bytes ("L?service=%3F")) ≠ 0 := by
  decide

/-- C8 amended: provided the configured login URL and stored service URL
contain no `%` byte and the path and query contain no `?` byte (so no
`%3F` can be injected by the inputs), the output contains no `%3F` when
the query is empty, and exactly one when it is non-empty — the separator
the builder writes, positioned immediately after the escaped path and
immediately before the escaped query. -/
theorem claim8_pct3F_separator (a : Bool) (c l s uri args : List Nat)
    (hl : ∀ b ∈ l, b ≠ 37) (hs : ∀ b ∈ s, b ≠ 37)
    (hu : ∀ b ∈ uri, b < 256 ∧ b ≠ 63) (ha : ∀ b ∈ args, b < 256 ∧ b ≠ 63) :
    create_login_url ⟨a, c, l, s⟩ uri args true =
      some ((l ++ serviceParam ++ s ++ ngx_escape_uri uri) ++
        (if args.isEmpty then [] else pct3F ++ ngx_escape_uri args)) ∧
    occCount pct3F ((l ++ serviceParam ++ s ++ ngx_escape_uri uri) ++
        (if args.isEmpty then [] else pct3F ++ ngx_escape_uri args)) =
      (if args.isEmpty then 0 else 1) := by
  constructor
  · simp [create_login_url, List.append_assoc]
  · have hsp : ∀ b ∈ serviceParam, b ≠ 37 := by decide
    rw [List.append_assoc, List.append_assoc, List.append_assoc,
      occCount_append_no37 _ _ hl, occCount_append_no37 _ _ hsp,
      occCount_append_no37 _ _ hs, occCount_escape_append _ _ hu]
    cases hargs : args.isEmpty
    · have h0 : occCount pct3F (ngx_escape_uri args) = 0 := by
        have := occCount_escape_append args [] ha
        simpa using this
      have hpre : pct3F.isPrefixOf (37 :: 51 :: 70 :: ngx_escape_uri args) = true := by
        simp [pct3F, List.isPrefixOf]
      rw [if_neg (by simp)]
      rw [show pct3F ++ ngx_escape_uri args
          = 37 :: 51 :: 70 :: ngx_escape_uri args from rfl]
      rw [occCount_cons, hpre]
      rw [occCount_cons_ne _ _ (by omega), occCount_cons_ne _ _ (by omega), h0]
      simp
    · rw [if_pos rfl, if_pos rfl]
      rfl

/-- C8 witness: the amended separator count at a concrete config. -/
theorem claim8_pct3F_separator_witness :
    create_login_url ⟨true, [], bytes ("cas"), bytes ("svc")⟩ (bytes ("/a"))
        (bytes ("x=1")) true
      = some ((bytes ("cas") ++ serviceParam ++ bytes ("svc") ++
          ngx_escape_uri (bytes ("/a"))) ++
          (if (bytes ("x=1")).isEmpty then []
           else pct3F ++ ngx_escape_uri (bytes ("x=1")))) ∧
    occCount pct3F ((bytes ("cas") ++ serviceParam ++ bytes ("svc") ++
          ngx_escape_uri (bytes ("/a"))) ++
          (if (bytes ("x=1")).isEmpty then []
           else pct3F ++ ngx_escape_uri (bytes ("x=1")))) =
      (if (bytes ("x=1")).isEmpty then 0 else 1) :=
  claim8_pct3F_separator true [] (bytes ("cas")) (bytes ("svc")) (bytes ("/a"))
    (bytes ("x=1")) (by decide) (by decide) (by decide) (by decide)

/-- C10: name comparison is by exact length and exact bytes
(case-sensitive): in a single-pair header `n=v` (with a well-formed name
and no `;` in the value) the scan matches exactly when the cookie's name
equals the target — so a cookie whose name strictly extends, or is a
strict prefix or suffix of, the target never matches, and vice versa. -/
theorem claim10_exact_name_match (n v target : List Nat) (aOk : Bool)
    (hn : 61 ∉ n) (hh : ∀ b, n.head? = some b → isspace b = false)
    (hv : 59 ∉ v) :
    find_cookie [n ++ 61 :: v] target aOk =
      if n = target then some v else none := by
  have hdropv : (n ++ 61 :: v).drop (n.length + 1) = v := by
    rw [show n ++ 61 :: v = (n ++ [61]) ++ v by simp,
      show n.length + 1 = (n ++ [61]).length by simp]
    exact List.drop_left _ _
  have hscan : scanHeader target (n ++ 61 :: v) aOk =
      if n = target then ScanResult.found v else ScanResult.noMatch := by
    rw [scanHeader]
    simp only [scanFuel]
    rw [if_pos (by simp)]
    have hskip : skipWs (n ++ 61 :: v) 0 = 0 := by
      rw [skipWs, List.drop_zero, takeWhile_eq_nil_of_head]
      · simp
      · intro b hb
        cases n with
        | nil =>
          simp at hb
          rw [← hb]
          decide
        | cons x t =>
          simp at hb
          rw [← hb]
          exact hh x rfl
    rw [hskip]
    have hm61 : memchrIdx (n ++ 61 :: v) 61 0 = some n.length := by
      rw [memchrIdx, List.drop_zero]
      simpa using memchrFrom_append (c := 61) v 0 hn
    rw [hm61]
    dsimp only
    have hm59 : memchrIdx (n ++ 61 :: v) 59 (n.length + 1) = none := by
      rw [memchrIdx, hdropv]
      exact memchrFrom_eq_none _ hv
    have htake : ((n ++ 61 :: v).drop 0).take (n.length - 0) = n := by
      simp only [List.drop_zero, Nat.sub_zero]
      exact List.take_left n (61 :: v)
    by_cases hnt : n = target
    · rw [if_pos ⟨by rw [hnt]; omega, by rw [htake, hnt]⟩, hm59, if_pos hnt,
        hdropv]
    · rw [if_neg ?_, hm59, if_neg hnt]
      rintro ⟨hlen, htk⟩
      rw [htake] at htk
      exact hnt htk
  by_cases hnt : n = target
  · simp only [find_cookie, hscan, if_pos hnt]
  · simp only [find_cookie, hscan, if_neg hnt]

/-- C10 witness: searching for "CAS" does not match a cookie named
"CASC"; searching for "CASC" matches neither "CAS" (strict prefix) nor
"ASC" (strict suffix) nor "casc" (case difference), but matches "CASC". -/
theorem claim10_exact_name_match_witness :
    find_cookie [bytes ("CASC") ++ 61 :: bytes ("x")] (bytes ("CAS")) true = none ∧
    find_cookie [bytes ("CAS") ++ 61 :: bytes ("x")] (bytes ("CASC")) true = none ∧
    find_cookie [bytes ("ASC") ++ 61 :: bytes ("x")] (bytes ("CASC")) true = none ∧
    find_cookie [bytes ("casc") ++ 61 :: bytes ("x")] (bytes ("CASC")) true = none ∧
    find_cookie [bytes ("CASC") ++ 61 :: bytes ("x")] (bytes ("CASC")) true
      = some (bytes ("x")) := by
  have h1 := claim10_exact_name_match (bytes ("CASC")) (bytes ("x"))
    (bytes ("CAS")) true (by decide) (by decide) (by decide)
  have h2 := claim10_exact_name_match (bytes ("CAS")) (bytes ("x"))
    (bytes ("CASC")) true (by decide) (by decide) (by decide)
  have h3 := claim10_exact_name_match (bytes ("ASC")) (bytes ("x"))
    (bytes ("CASC")) true (by decide) (by decide) (by decide)
  have h4 := claim10_exact_name_match (bytes ("casc")) (bytes ("x"))
    (bytes ("CASC")) true (by decide) (by decide) (by decide)
  have h5 := claim10_exact_name_match (bytes ("CASC")) (bytes ("x"))
    (bytes ("CASC")) true (by decide) (by decide) (by decide)
  exact ⟨h1.trans (by decide), h2.trans (by decide), h3.trans (by decide),
    h4.trans (by decide), h5.trans (by decide)⟩

/-- C9: headers with no `=` — including whitespace-only headers and
headers made of stray `;` separators and whitespace-only segments — make
the scanner terminate gracefully with "not found", never an error; and
the leading-whitespace skip of each segment never examines an index
beyond `h.length`, i.e. never reads past the NUL terminator that ends the
header buffer (nginx stores `h.len + 1` bytes, the last one NUL). -/
theorem claim9_malformed_headers_graceful (name : List Nat) (aOk : Bool) :
    (∀ headers : List (List Nat), (∀ h ∈ headers, 61 ∉ h) →
      find_cookie headers name aOk = none) ∧
    (∀ (h : List Nat) (i : Nat), i ≤ h.length →
      i ≤ skipWs h i ∧ skipWs h i ≤ h.length) := by
  constructor
  · intro headers hh
    induction headers with
    | nil => rfl
    | cons h t ih =>
      have hh1 : 61 ∉ h := hh h (by simp)
      have hscan : scanHeader name h aOk = ScanResult.noMatch := by
        rw [scanHeader]
        simp only [scanFuel]
        by_cases h0 : 0 < h.length
        · rw [if_pos h0]
          have hm : memchrIdx h 61 (skipWs h 0) = none := by
            rw [memchrIdx]
            exact memchrFrom_eq_none _ fun hc => hh1 (List.drop_subset _ _ hc)
          rw [hm]
        · rw [if_neg h0]
      rw [find_cookie, hscan]
      exact ih fun x hx => hh x (by simp [hx])
  · intro h i hi
    exact ⟨skipWs_ge h i, skipWs_le h i hi⟩

/-- C9 witness: a whitespace-only header, a stray-semicolon header with
whitespace-only segments, and an `=`-less garbage header all yield "not
found"; the whitespace skip on a whitespace-only header stops at the
terminator index, not beyond. -/
theorem claim9_malformed_headers_graceful_witness :
    find_cookie [bytes ("   "), bytes (" ; ;; "), bytes ("garbage")]
      (bytes ("CASC")) true = none ∧
    (0 ≤ skipWs (bytes ("   ")) 0 ∧ skipWs (bytes ("   ")) 0 ≤ 3) := by
  have h := claim9_malformed_headers_graceful (bytes ("CASC")) true
  refine ⟨h.1 _ (by decide), ?_⟩
  have h2 := h.2 (bytes ("   ")) 0 (by decide)
  simpa using h2
